import Mathlib

/-!
# Verification of the SLUUG/STLLUG marketing-content generation pipeline

Shallow embedding of the TypeScript sources of `sluug_stllug_generation`:
the record schemas of `src/models.ts` (zod), and the enrichment pipeline of
the main driver (tag generation, tweet generation and link suffixing,
YouTube-title generation with its fan-out rule, image-design fan-out, and
image materialization), together with proofs of the specification's claims
about them.

Conventions of the embedding:
* The OpenAI client is replaced by an `Oracle` giving, for each invocation
  index of each stage, the structured response the API would return (or
  `none` when the model never produces a successful tool call).
* JavaScript exceptions are `Except String`; a rejected `Promise.all` is the
  first error in element order.
* JavaScript strings are Lean `String`s; the ECMAScript string methods used
  by the source (`trimStart`, `trimEnd`, `toLowerCase`, `replace(" ", "-")`,
  `replaceAll`, `slice`) are modelled on `String.data` character lists.
  `toLowerCase` is modelled per code point by `Char.toLower`, which agrees
  with ECMAScript on the ASCII range exercised by the program.
-/

namespace SluugGen

/-! ## ECMAScript string primitives -/

/-- White-space and line-terminator code points recognised by ECMAScript
`String.prototype.trimStart` and `trimEnd` (the WhiteSpace and LineTerminator
productions of ECMA-262, including the Unicode Zs category). -/
def jsWhitespaceChars : List Char :=
  [Char.ofNat 0x09, Char.ofNat 0x0a, Char.ofNat 0x0b, Char.ofNat 0x0c,
   Char.ofNat 0x0d, ' ', Char.ofNat 0xa0, Char.ofNat 0x1680,
   Char.ofNat 0x2000, Char.ofNat 0x2001, Char.ofNat 0x2002, Char.ofNat 0x2003,
   Char.ofNat 0x2004, Char.ofNat 0x2005, Char.ofNat 0x2006, Char.ofNat 0x2007,
   Char.ofNat 0x2008, Char.ofNat 0x2009, Char.ofNat 0x200a, Char.ofNat 0x2028,
   Char.ofNat 0x2029, Char.ofNat 0x202f, Char.ofNat 0x205f, Char.ofNat 0x3000,
   Char.ofNat 0xfeff]

/-- Decides whether a character is ECMAScript white space. -/
def jsIsWhitespace (c : Char) : Bool :=
  jsWhitespaceChars.contains c

/-- Embeds `String.prototype.trimStart`. -/
def jsTrimStart (s : String) : String :=
  ⟨s.data.dropWhile jsIsWhitespace⟩

/-- Embeds `String.prototype.trimEnd`. -/
def jsTrimEnd (s : String) : String :=
  ⟨(s.data.reverse.dropWhile jsIsWhitespace).reverse⟩

/-- Embeds `.replace(" ", "-")` on a character list: ECMAScript `replace` with
a string pattern substitutes only the first occurrence. -/
def replaceFirstSpace : List Char → List Char
  | [] => []
  | c :: cs => if c = ' ' then '-' :: cs else c :: replaceFirstSpace cs

/-- Embeds `String.prototype.replace(" ", "-")`. -/
def jsReplaceFirstSpace (s : String) : String :=
  ⟨replaceFirstSpace s.data⟩

/-- Embeds `String.prototype.toLowerCase`, per code point; on the ASCII
range this is exactly the ECMAScript mapping. -/
def jsToLowerCase (s : String) : String :=
  ⟨s.data.map Char.toLower⟩

/-- Embeds `Array.prototype.join()` with the default "," separator. -/
def jsJoin (l : List String) : String :=
  String.intercalate "," l

/-! ## Meeting type (`meetingTypeSchema`, `z.enum(["SLUUG", "STLLUG"])`) -/

/-- The two values of `meetingTypeSchema` in `src/models.ts`. -/
inductive MeetingType where
  | SLUUG
  | STLLUG
deriving Repr, DecidableEq

/-- String form of a `MeetingType`, as interpolated by template literals. -/
def MeetingType.str : MeetingType → String
  | .SLUUG => "SLUUG"
  | .STLLUG => "STLLUG"

/-! ## Date coercion (`z.coerce.date()` = JavaScript `new Date(string)`) -/

/-- Calendar date produced by a successful `new Date(string)` coercion. The
epoch-milliseconds encoding of the JavaScript `Date` object is determined
injectively by this civil triple for the date-only strings modelled here, so
the triple serves as the date value. -/
structure JsDate where
  year : Nat
  month : Nat
  day : Nat
deriving Repr, DecidableEq

/-- Numeric value of a decimal digit character. -/
def charDigit (c : Char) : Nat :=
  c.toNat - 48

/-- Reads exactly `n` decimal digits from the front of a character list,
accumulating their value. -/
def parseDigitsAux : Nat → Nat → List Char → Option (Nat × List Char)
  | 0, acc, rest => some (acc, rest)
  | n + 1, acc, c :: rest =>
    if c.isDigit then parseDigitsAux n (acc * 10 + charDigit c) rest else none
  | _ + 1, _, [] => none

/-- Reads exactly `n` decimal digits, returning their value and the rest. -/
def parseDigits (n : Nat) (l : List Char) : Option (Nat × List Char) :=
  parseDigitsAux n 0 l

/-- Gregorian leap-year rule, as used by ECMAScript date arithmetic. -/
def isLeapYear (y : Nat) : Bool :=
  y % 4 == 0 && (y % 100 != 0 || y % 400 == 0)

/-- Number of days in a month of a given year. -/
def daysInMonth (y : Nat) (m : Nat) : Nat :=
  if m = 2 then (if isLeapYear y then 29 else 28)
  else if m = 4 ∨ m = 6 ∨ m = 9 ∨ m = 11 then 30
  else 31

/-- Embeds the string branch of JavaScript `new Date(string)` (hence of
`z.coerce.date()`), restricted to the date-only forms `YYYY`, `YYYY-MM` and
`YYYY-MM-DD` of the ECMAScript Date Time String Format (ECMA-262 §21.4.1.18);
an absent month or day defaults to `01`. Time-suffixed forms and Node's
implementation-specific fallback formats accept still more strings, so this
model only under-approximates the set of strings the real coercion accepts.
An out-of-range month or day yields an invalid date (`none`), matching V8's
treatment of ISO-format strings. `jsDateFromMonthTail` and
`jsDateFromYearTail` are its continuations after the year and month digits. -/
def jsDateFromMonthTail (y mo : Nat) (r2 : List Char) : Option JsDate :=
  match r2 with
  | [] => some ⟨y, mo, 1⟩
  | '-' :: r3 =>
    match parseDigits 2 r3 with
    | none => none
    | some (d, r4) =>
      if d < 1 ∨ daysInMonth y mo < d then none
      else
        match r4 with
        | [] => some ⟨y, mo, d⟩
        | _ => none
  | _ => none

/-- Continuation of `jsDateParse` after the four year digits. -/
def jsDateFromYearTail (y : Nat) (rest : List Char) : Option JsDate :=
  match rest with
  | [] => some ⟨y, 1, 1⟩
  | '-' :: r1 =>
    match parseDigits 2 r1 with
    | none => none
    | some (mo, r2) =>
      if mo < 1 ∨ 12 < mo then none
      else jsDateFromMonthTail y mo r2
  | _ => none

/-- Entry point of the modelled `new Date(string)` coercion. -/
def jsDateParse (s : String) : Option JsDate :=
  match parseDigits 4 s.data with
  | none => none
  | some (y, rest) => jsDateFromYearTail y rest

/-- Two-digit zero-padded decimal rendering. -/
def pad2 (n : Nat) : String :=
  ⟨[Nat.digitChar (n / 10 % 10), Nat.digitChar (n % 10)]⟩

/-- Four-digit zero-padded decimal rendering. -/
def pad4 (n : Nat) : String :=
  ⟨[Nat.digitChar (n / 1000 % 10), Nat.digitChar (n / 100 % 10),
    Nat.digitChar (n / 10 % 10), Nat.digitChar (n % 10)]⟩

/-- Renders a civil date in the `YYYY-MM-DD` format named by the spec. -/
def formatYYYYMMDD (y mo d : Nat) : String :=
  pad4 y ++ "-" ++ pad2 mo ++ "-" ++ pad2 d

/-- Decides whether a string is syntactically in `YYYY-MM-DD` format:
four digits, a hyphen, two digits, a hyphen, two digits. -/
def isYYYYMMDDFormat (s : String) : Bool :=
  match s.data with
  | [y1, y2, y3, y4, h1, m1, m2, h2, d1, d2] =>
    y1.isDigit && y2.isDigit && y3.isDigit && y4.isDigit && h1 == '-' &&
    m1.isDigit && m2.isDigit && h2 == '-' && d1.isDigit && d2.isDigit
  | _ => false

/-- Day of the week of a Gregorian date (0 = Sunday), by Sakamoto's method. -/
def dayOfWeek (y m d : Nat) : Nat :=
  let t : List Int := [0, 3, 2, 5, 0, 3, 5, 1, 4, 6, 2, 4]
  let yy : Int := if m < 3 then (y : Int) - 1 else (y : Int)
  ((yy + yy.fdiv 4 - yy.fdiv 100 + yy.fdiv 400 + t.getD (m - 1) 0 + (d : Int)).emod 7).toNat

/-- Three-letter English weekday name, as rendered by `Date.prototype.toString`. -/
def weekdayName (w : Nat) : String :=
  (["Sun", "Mon", "Tue", "Wed", "Thu", "Fri", "Sat"].getD w "Sun")

/-- Three-letter English month name, as rendered by `Date.prototype.toString`. -/
def monthName (m : Nat) : String :=
  (["Jan", "Feb", "Mar", "Apr", "May", "Jun",
    "Jul", "Aug", "Sep", "Oct", "Nov", "Dec"].getD (m - 1) "Jan")

/-- Embeds `Date.prototype.toString` (ECMA-262 ToDateString) for the
midnight-UTC dates produced by date-only coercion, with the host timezone
fixed to UTC: the "Weekday Month DD YYYY HH:MM:SS" prefix is mandated by the
standard; only the rendered offset and timezone name vary with the host, and
no host renders the `YYYY-MM-DD` source form. -/
def jsDateToString (dt : JsDate) : String :=
  weekdayName (dayOfWeek dt.year dt.month dt.day) ++ " " ++ monthName dt.month
    ++ " " ++ pad2 dt.day ++ " " ++ pad4 dt.year
    ++ " 00:00:00 GMT+0000 (Coordinated Universal Time)"

/-- Template-literal rendering `${meetingDate}` of the schema's optional
coerced `Date`: `Date.prototype.toString` when present, "undefined" when
absent. -/
def renderDateTemplate (o : Option JsDate) : String :=
  match o with
  | some dt => jsDateToString dt
  | none => "undefined"

/-- Template-literal rendering `${meetingType}` of the schema's optional
enum value: the enum string when present, "undefined" when absent. -/
def renderTypeTemplate (o : Option MeetingType) : String :=
  match o with
  | some mt => mt.str
  | none => "undefined"

/-! ## Shared validated shapes (`linkSchema`, `imageSchema`) -/

/-- Validated shape of `linkSchema` in `src/models.ts`. -/
structure Link where
  url : String
  linkText : Option String
deriving Repr, DecidableEq

/-- Validated shape of `imageSchema` in `src/models.ts`. -/
structure Image where
  src : String
  alt : String
deriving Repr, DecidableEq

namespace Models

/-!
## Record Schema (`src/models.ts`)

Untrusted input is modelled by `Raw*` records whose every field is optional
(`none` = the JSON key is absent); the zod `parse` calls are embedded as
functions from raw records to `Except`. zod aggregates all issues into one
`ZodError`; the embedding collapses the aggregation and reports the first
issue, which preserves exactly when validation succeeds — the only aspect the
claims depend on.
-/

/-- Raw JSON input for `linkSchema`. -/
structure RawLink where
  url : Option String := none
  linkText : Option String := none
deriving Repr, DecidableEq

/-- Raw JSON input for `imageSchema`. -/
structure RawImage where
  src : Option String := none
  alt : Option String := none
deriving Repr, DecidableEq

/-- Raw JSON input for `presentationSchema`. -/
structure RawPresentation where
  title : Option String := none
  presenterNames : Option (List String) := none
  abstract : Option String := none
  references : Option (List RawLink) := none
  tags : Option (List String) := none
  tweets : Option (List String) := none
deriving Repr, DecidableEq

/-- Raw JSON input for `meetingSchema`. -/
structure RawMeeting where
  meetingDate : Option String := none
  meetingType : Option String := none
  presentations : Option (List RawPresentation) := none
  meetupUrl : Option String := none
  youtubeUrl : Option String := none
  youtubeTitles : Option (List String) := none
  image : Option (List RawImage) := none
deriving Repr, DecidableEq

/-- Validated shape of `presentationSchema`: `title`, `presenterNames` and
`abstract` are required; `references`, `tags` and `tweets` are optional, and
the schema places no cardinality constraint on `tags` or `tweets`. -/
structure Presentation where
  title : String
  presenterNames : List String
  abstract : String
  references : Option (List Link)
  tags : Option (List String)
  tweets : Option (List String)
deriving Repr, DecidableEq

/-- Validated shape of `meetingSchema`. -/
structure Meeting where
  meetingDate : Option JsDate
  meetingType : Option MeetingType
  presentations : List Presentation
  meetupUrl : Option String
  youtubeUrl : Option String
  youtubeTitles : Option (List String)
  image : Option (List Image)
deriving Repr, DecidableEq

/-- Validates each element of a `z.array(...)` with the element schema,
failing on the first non-conforming element. -/
def parseList {α β : Type} (f : α → Except String β) : List α → Except String (List β)
  | [] => .ok []
  | a :: as =>
    match f a with
    | .error e => .error e
    | .ok b =>
      match parseList f as with
      | .error e => .error e
      | .ok bs => .ok (b :: bs)

/-- Embeds `linkSchema.parse`: `url` required, `linkText` optional. -/
def linkParse (r : RawLink) : Except String Link :=
  match r.url with
  | none => .error "Required"
  | some u => .ok ⟨u, r.linkText⟩

/-- Embeds `imageSchema.parse`: `src` and `alt` required. -/
def imageParse (r : RawImage) : Except String Image :=
  match r.src, r.alt with
  | some s, some a => .ok ⟨s, a⟩
  | _, _ => .error "Required"

/-- Embeds `presentationSchema.parse`. -/
def presentationParse (r : RawPresentation) : Except String Presentation :=
  match r.title, r.presenterNames, r.abstract with
  | some t, some pn, some ab =>
    match r.references with
    | none => .ok ⟨t, pn, ab, none, r.tags, r.tweets⟩
    | some rs =>
      match parseList linkParse rs with
      | .error e => .error e
      | .ok refs => .ok ⟨t, pn, ab, some refs, r.tags, r.tweets⟩
  | _, _, _ => .error "Required"

/-- Embeds `meetingTypeSchema.parse` (`z.enum(["SLUUG", "STLLUG"])`). -/
def meetingTypeParse (s : String) : Except String MeetingType :=
  if s = "SLUUG" then .ok .SLUUG
  else if s = "STLLUG" then .ok .STLLUG
  else .error "Invalid enum value"

/-- Embeds `z.coerce.date().optional()`: an absent value passes through, a
present string is coerced by `new Date(string)` and an invalid date fails. -/
def coerceDateOptional (o : Option String) : Except String (Option JsDate) :=
  match o with
  | none => .ok none
  | some s =>
    match jsDateParse s with
    | some d => .ok (some d)
    | none => .error "Invalid date"

/-- Embeds `meetingTypeSchema.optional().parse`. -/
def meetingTypeOptionalParse (o : Option String) : Except String (Option MeetingType) :=
  match o with
  | none => .ok none
  | some s => (meetingTypeParse s).map some

/-- Embeds `z.array(imageSchema).optional().parse`. -/
def imageOptionalParse (o : Option (List RawImage)) : Except String (Option (List Image)) :=
  match o with
  | none => .ok none
  | some l => (parseList imageParse l).map some

/-- Embeds `meetingSchema.parse`: `presentations` is required with
`.min(1)`; every other field is optional. -/
def meetingParse (r : RawMeeting) : Except String Meeting :=
  match coerceDateOptional r.meetingDate with
  | .error e => .error e
  | .ok md =>
    match meetingTypeOptionalParse r.meetingType with
    | .error e => .error e
    | .ok mt =>
      match r.presentations with
      | none => .error "Required"
      | some psRaw =>
        if psRaw.length < 1 then .error "Array must contain at least 1 element(s)"
        else
          match parseList presentationParse psRaw with
          | .error e => .error e
          | .ok ps =>
            match imageOptionalParse r.image with
            | .error e => .error e
            | .ok imgs =>
              .ok ⟨md, mt, ps, r.meetupUrl, r.youtubeUrl, r.youtubeTitles, imgs⟩

end Models

/-!
## Tool parameter schemas (`src/models.ts`)

Each `*ToolParamsSchema` constrains the structured tool-call arguments the
generative API must supply; it validates stage responses, not input files.
-/

/-- Embeds `tagToolParamsSchema`: `z.array(z.string()).max(3)`. -/
def tagToolParamsCheck (tags : List String) : Bool :=
  tags.length ≤ 3

/-- Embeds `tweetToolParamsSchema`: `z.array(z.string()).length(3)`. -/
def tweetToolParamsCheck (tweets : List String) : Bool :=
  tweets.length == 3

/-- Embeds `youTubeTitleToolParamsSchema`: `z.array(z.string()).length(3)`. -/
def youTubeTitleToolParamsCheck (titles : List String) : Bool :=
  titles.length == 3

namespace Pipeline

/-!
## Enrichment pipeline (the main driver)

The driver imports `youTubeTitleToolParamsSchema` and `YouTubeTitleToolParams`,
names exported only by the `src/models.ts` revision in which `meetingDate` is
`z.coerce.date().optional()` — a JavaScript `Date` — and `meetingType` is
optional; the meeting record here carries those validated values. Template
literals render a `Date` through `Date.prototype.toString` and `undefined` as
"undefined" (see `renderDateTemplate` and `renderTypeTemplate`). The driver
reads and writes the presentation field `tweet` (JavaScript records accept
the new key even though the schema declares `tweets`) and adds `tags`, the
meeting-level `youTubeTitle` list and the `image` list.
-/

/-- Presentation record as manipulated by the driver. -/
structure Presentation where
  title : String
  presenterNames : List String
  abstract : String
  references : Option (List Link) := none
  tags : Option (List String) := none
  tweet : Option (List String) := none
deriving Repr, DecidableEq

/-- Meeting record as manipulated by the driver: `meetingDate` is the
schema's optional coerced `Date` and `meetingType` the optional enum value. -/
structure Meeting where
  meetingDate : Option JsDate
  meetingType : Option MeetingType
  presentations : List Presentation
  meetupUrl : Option String := none
  youtubeUrl : Option String := none
  youTubeTitle : Option (List String) := none
  image : Option (List Image) := none
deriving Repr, DecidableEq

/-- Embeds `tagTool`: kebab-cases each tag by
`tag.trimStart().trimEnd().replace(" ", "-").toLowerCase()`. -/
def tagTool (tags : List String) : List String :=
  tags.map fun tag => jsToLowerCase (jsReplaceFirstSpace (jsTrimEnd (jsTrimStart tag)))

/-- Embeds `tweetTool`: returns the tweets unchanged. -/
def tweetTool (tweets : List String) : List String :=
  tweets

/-- Embeds `youTubeTitleTool`: returns the titles unchanged. -/
def youTubeTitleTool (titles : List String) : List String :=
  titles

/-- Embeds one `openAi.beta.chat.completions.runTools(...)` round trip with a
tool built by `zodFunction`: the oracle response `none` means the model never
produced a successful tool call, and arguments rejected by the zod schema in
`zodFunction`'s `parse` likewise leave no final call result, so in both cases
`finalFunctionCallResult()` is `undefined` and the stage throws
`"OpenAI did not call the tool."`. -/
def runTool (check : List String → Bool) (tool : List String → List String)
    (resp : Option (List String)) : Except String (List String) :=
  match resp with
  | none => .error "OpenAI did not call the tool."
  | some args =>
    if check args then .ok (tool args)
    else .error "OpenAI did not call the tool."

/-- Embeds `generateTags`: the parsed tool result becomes the presentation's
`tags` field. -/
def generateTags (resp : Option (List String)) (p : Presentation) :
    Except String Presentation :=
  (runTool tagToolParamsCheck tagTool resp).map fun tags => { p with tags := some tags }

/-- Embeds `generateTweets`: the parsed tool result becomes the
presentation's `tweet` field. -/
def generateTweets (resp : Option (List String)) (p : Presentation) :
    Except String Presentation :=
  (runTool tweetToolParamsCheck tweetTool resp).map fun tws => { p with tweet := some tws }

/-- Embeds `addLinkToTweets`: throws when the presentation has no `tweet`
field; when `meetupUrl` is truthy (present and non-empty) each tweet becomes
the tweet, a space and the url, trimmed of trailing white space; otherwise
each tweet is only trimmed of trailing white space. -/
def addLinkToTweets (p : Presentation) (meetupUrl : Option String) :
    Except String Presentation :=
  match p.tweet with
  | none => .error "Presentation does not contain any tweets"
  | some tweets =>
    match meetupUrl with
    | some url =>
      if url = "" then .ok { p with tweet := some (tweets.map fun tweet => jsTrimEnd tweet) }
      else .ok { p with tweet := some (tweets.map fun tweet => jsTrimEnd (tweet ++ " " ++ url)) }
    | none => .ok { p with tweet := some (tweets.map fun tweet => jsTrimEnd tweet) }

/-- Embeds `suffixTitleWithMeetingDateAndType`. The TypeScript declaration
types the parameters `string` and `MeetingType`, but the driver passes the
schema's coerced `Date | undefined` and optional meeting type; the template
literal renders those runtime values, embedded by the `render*Template`
functions. -/
def suffixTitleWithMeetingDateAndType (generatedTitles : List String)
    (meetingDate : Option JsDate) (meetingType : Option MeetingType) : List String :=
  generatedTitles.map fun title =>
    title ++ " | " ++ renderTypeTemplate meetingType ++ " " ++ renderDateTemplate meetingDate

/-- Embeds `generateYouTubeTitleFromPrompt`: one API invocation whose parsed
tool result is decorated with the meeting type and date. -/
def generateYouTubeTitleFromPrompt (resp : Option (List String))
    (meetingDate : Option JsDate) (meetingType : Option MeetingType) :
    Except String (List String) :=
  (runTool youTubeTitleToolParamsCheck youTubeTitleTool resp).map
    fun titles => suffixTitleWithMeetingDateAndType titles meetingDate meetingType

/-- Embeds `convertPresentationToPrompt`; call sites in the fan-outs pass
`includePresenters = false` and no `meetingDate`. -/
def convertPresentationToPrompt (p : Presentation) (includePresenters : Bool)
    (meetingDate : Option String) : String :=
  (match meetingDate with
   | some d => if d = "" then "" else "This presentation will be given on: " ++ d
   | none => "")
  ++ ".\n    The title of the presentation is: " ++ p.title
  ++ ".\n    "
  ++ (if includePresenters then "The presenter(s) are: " ++ jsJoin p.presenterNames ++ "." else "")
  ++ "\n    This presentation abstract is as follows: " ++ p.abstract
  ++ "\n    "
  ++ (match p.tags with
      | some tags => "Tags: " ++ jsJoin tags
      | none => "")

/-- Embeds `convertPresentationsToPrompt`. -/
def convertPresentationsToPrompt (ps : List Presentation) (includePresenters : Bool)
    (meetingDate : Option String) : String :=
  String.intercalate "\n" (ps.map fun p => convertPresentationToPrompt p includePresenters meetingDate)

/-- Prompts of the YouTube-title fan-out in the driver: a meeting with a
single presentation issues three independent invocations for that
presentation; a meeting with several issues one invocation per presentation
plus one over all presentations combined. Each list element is one
generative-API invocation. -/
def youTubeTitlePrompts (ps : List Presentation) : List String :=
  if h : ps.length = 1 then
    List.replicate 3 (convertPresentationToPrompt (ps.get ⟨0, by omega⟩) false none)
  else
    (ps.map fun p => convertPresentationToPrompt p false none)
      ++ [convertPresentationsToPrompt ps false none]

/-- Prompts of the image-design fan-out in the driver, with the same fan-out
rule as the YouTube-title stage. -/
def designIdeaPrompts (ps : List Presentation) : List String :=
  if h : ps.length = 1 then
    List.replicate 3 (convertPresentationToPrompt (ps.get ⟨0, by omega⟩) false none)
  else
    (ps.map fun p => convertPresentationToPrompt p false none)
      ++ [convertPresentationsToPrompt ps false none]

/-- Embeds `getFileNamePrefix` from the driver: the template-rendered date,
an underscore and the lower-cased meeting type. The driver passes the
coerced `Date` and the optional meeting type; calling `.toLowerCase()` on an
absent meeting type throws a `TypeError`. -/
def outputFileStem (meetingDate : Option JsDate) (meetingType : Option MeetingType) :
    Except String String :=
  match meetingType with
  | none => .error "TypeError: Cannot read properties of undefined (reading 'toLowerCase')"
  | some mt => .ok (renderDateTemplate meetingDate ++ "_" ++ jsToLowerCase mt.str)

/-- Characters removed from the revised prompt when deriving an image file
name (the regex character class of the driver; code 39 is the apostrophe,
96 the backtick, 123 and 125 the curly braces). -/
def removedPunctChars : List Char :=
  ['.', ',', '/', '#', '!', '$', '%', '^', '&', '*', Char.ofNat 39, '"',
   ';', ':', Char.ofNat 123, Char.ofNat 125, '=', '_', Char.ofNat 96, '~', '(', ')']

/-- File name of one generated image: the output stem, an underscore, and
the revised prompt sliced to 60 characters, trimmed of trailing white space,
stripped of punctuation, with spaces replaced by hyphens and lower-cased. -/
def imageFileName (fileStem : String) (revisedPrompt : String) : String :=
  fileStem ++ "_" ++
    jsToLowerCase
      ⟨((jsTrimEnd ⟨revisedPrompt.data.take 60⟩).data.filter
          fun c => !(removedPunctChars.contains c)).map
        fun c => if c = ' ' then '-' else c⟩
  ++ ".png"

/-- Oracle standing in for the OpenAI client: for each stage, the structured
response of its `i`-th invocation. For the image stage the pair is the
transient image URL and the revised prompt, each possibly missing. -/
structure Oracle where
  tagResp : Nat → Option (List String)
  tweetResp : Nat → Option (List String)
  titleResp : Nat → Option (List String)
  designResp : Nat → Option String
  imageResp : Nat → Option String × Option String

/-- Indexed effectful map: `Promise.all` over `list.map(async ...)`, with a
rejection surfacing as the first error in element order. -/
def traverseIdx (f : Nat → α → Except String β) : List α → Nat → Except String (List β)
  | [], _ => .ok []
  | a :: as, i =>
    match f i a with
    | .error e => .error e
    | .ok b =>
      match traverseIdx f as (i + 1) with
      | .error e => .error e
      | .ok bs => .ok (b :: bs)

/-- Embeds the `meetingWithTags` step of the driver. -/
def addTagsStage (o : Oracle) (m : Meeting) : Except String Meeting :=
  (traverseIdx (fun i p => generateTags (o.tagResp i) p) m.presentations 0).map
    fun ps => { m with presentations := ps }

/-- Embeds the `meetingWithTweets` step of the driver: per presentation,
tweet generation followed by link suffixing. -/
def addTweetsStage (o : Oracle) (m : Meeting) : Except String Meeting :=
  (traverseIdx
      (fun i p =>
        match generateTweets (o.tweetResp i) p with
        | .error e => .error e
        | .ok pt => addLinkToTweets pt m.meetupUrl)
      m.presentations 0).map
    fun ps => { m with presentations := ps }

/-- Embeds the `meetingWithYouTubeTitles` step of the driver: one
title-generation invocation per element of `youTubeTitlePrompts`, their
results concatenated in invocation order into the `youTubeTitle` field. -/
def addTitlesStage (o : Oracle) (m : Meeting) : Except String Meeting :=
  (traverseIdx
      (fun i _prompt => generateYouTubeTitleFromPrompt (o.titleResp i) m.meetingDate m.meetingType)
      (youTubeTitlePrompts m.presentations) 0).map
    fun titleLists => { m with youTubeTitle := some titleLists.flatten }

/-- Embeds the `designIdeas` step of the driver: one free-text design idea
per element of `designIdeaPrompts`; a missing message content throws. -/
def designIdeasStage (o : Oracle) (m : Meeting) : Except String (List String) :=
  traverseIdx
    (fun i _prompt =>
      match o.designResp i with
      | some content => .ok content
      | none => .error "OpenAI did not call the tool.")
    (designIdeaPrompts m.presentations) 0

/-- Embeds `generateImage` for one run: for each design idea, a missing URL
or revised prompt throws; otherwise the image record and the written file
name are produced. The source's `https.get` callbacks are fire-and-forget,
so when one design fails, siblings already downloading may still write their
files afterwards; the model records writes only for a fully successful image
stage, the only path the claims exercise (an earlier stage failure aborts
before any download is issued). -/
def generateImageAux (imgResp : Nat → Option String × Option String)
    (fileStem : String) : List String → Nat → Except String (List (Image × String))
  | [], _ => .ok []
  | _design :: rest, i =>
    match imgResp i with
    | (none, _) => .error "No image url returned from OpenAI."
    | (some _, none) => .error "No revised prompt returned from OpenAI."
    | (some _, some revisedPrompt) =>
      match generateImageAux imgResp fileStem rest (i + 1) with
      | .error e => .error e
      | .ok tail =>
        .ok ((⟨"./" ++ imageFileName fileStem revisedPrompt, revisedPrompt⟩,
              imageFileName fileStem revisedPrompt) :: tail)

/-- Embeds the whole driver: tags, tweets, YouTube titles, design ideas,
images, then the JSON output file. The second component lists the files
written during the run; every write happens in the image stage or at the
final `writeMeetingToFile`, so an earlier abort leaves the list empty. -/
def runPipeline (m0 : Meeting) (o : Oracle) : Except String Meeting × List String :=
  match addTagsStage o m0 with
  | .error e => (.error e, [])
  | .ok m1 =>
    match addTweetsStage o m1 with
    | .error e => (.error e, [])
    | .ok m2 =>
      match addTitlesStage o m2 with
      | .error e => (.error e, [])
      | .ok m3 =>
        match designIdeasStage o m3 with
        | .error e => (.error e, [])
        | .ok designIdeas =>
          match outputFileStem m3.meetingDate m3.meetingType with
          | .error e => (.error e, [])
          | .ok stem =>
            match generateImageAux o.imageResp stem designIdeas 0 with
            | .error e => (.error e, [])
            | .ok imgs =>
              (.ok { m3 with image := some (imgs.map fun x => x.1) },
               (imgs.map fun x => x.2) ++ [stem ++ ".json"])

end Pipeline

/-!
## Concrete fixtures

Records used by the concrete counterexamples and witnesses; the meeting
mirrors the end-to-end example of the spec.
-/

/-- The example presentation of the spec's end-to-end scenario. -/
def pIntro : Pipeline.Presentation :=
  ⟨"Intro to Containers", ["Jane Doe"], "A talk about containers.", none, none, none⟩

/-- A second presentation, for the multi-presentation fan-out case. -/
def pSecond : Pipeline.Presentation :=
  ⟨"Advanced BSD Jails", ["Sam Lee"], "A talk about jails.", none, none, none⟩

/-- The example presentation with a `tags` field already set in the input. -/
def pTagged : Pipeline.Presentation :=
  { pIntro with tags := some ["old"] }

/-- A single-presentation meeting, as in the spec's example scenario, after
validation (the input date string "2024-02-14" already coerced to a date). -/
def mtgOne : Pipeline.Meeting :=
  ⟨some ⟨2024, 2, 14⟩, some .SLUUG, [pIntro],
   some "https://www.meetup.com/slug/1", none, none, none⟩

/-- An oracle whose every response satisfies its stage's schema. -/
def oracleOk : Pipeline.Oracle :=
  ⟨fun _ => some ["Containers", "Linux Kernel"],
   fun _ => some ["Tweet one", "Tweet two", "Tweet three"],
   fun _ => some ["Title A", "Title B", "Title C"],
   fun _ => some "A futuristic design",
   fun _ => (some "https://images.example/1", some "A Futuristic Design Idea")⟩

/-- The well-behaved oracle with the tweet stage responding with only two
tweets, violating `tweetToolParamsSchema`. -/
def oracleBadTweets : Pipeline.Oracle :=
  { oracleOk with tweetResp := fun _ => some ["Only one", "Only two"] }

/-- Default meeting used only as a fallback for `Option.getD`. -/
def meetingDefault : Pipeline.Meeting :=
  ⟨none, none, [], none, none, none, none⟩

/-- The meeting produced by the pipeline on `mtgOne` with `oracleOk`. -/
def mOutOne : Pipeline.Meeting :=
  ((Pipeline.runPipeline mtgOne oracleOk).1.toOption).getD meetingDefault

/-- The files written by the pipeline on `mtgOne` with `oracleOk`. -/
def wOutOne : List String :=
  (Pipeline.runPipeline mtgOne oracleOk).2

/-- Raw input presentation with the required fields of the spec example and
the given `tags` and `tweets` arrays. -/
def rawPresentationWith (tags tweets : List String) : Models.RawPresentation :=
  { title := some "Intro to Containers", presenterNames := some ["Jane Doe"],
    abstract := some "A talk about containers.", references := none,
    tags := some tags, tweets := some tweets }

/-- Raw input meeting with one presentation carrying the given `tags` and
`tweets` arrays. -/
def rawMeetingWith (tags tweets : List String) : Models.RawMeeting :=
  { meetingDate := some "2024-02-14", meetingType := some "SLUUG",
    presentations := some [rawPresentationWith tags tweets] }

/-- The raw meeting of the spec example with its date in `YYYY-MM` form. -/
def rawMeetingMonthDate : Models.RawMeeting :=
  { rawMeetingWith [] ["a", "b", "c"] with meetingDate := some "2024-02" }

/-- A raw meeting whose `presentations` key is absent. -/
def rawMeetingNoPresentations : Models.RawMeeting :=
  { meetingDate := some "2024-02-14", meetingType := some "SLUUG" }

/-- Default validated meeting used only as a fallback for `Option.getD`. -/
def meetingModelDefault : Models.Meeting :=
  ⟨none, none, [], none, none, none, none⟩

/-- The validated meeting produced from `rawMeetingWith ["ai"] ["x","y","z"]`. -/
def mtgParsedOne : Models.Meeting :=
  ((Models.meetingParse (rawMeetingWith ["ai"] ["x", "y", "z"])).toOption).getD meetingModelDefault

/-!
## Helper lemmas: lists and characters
-/

theorem dropWhile_idem {α : Type} (p : α → Bool) (l : List α) :
    (l.dropWhile p).dropWhile p = l.dropWhile p := by
  induction l with
  | nil => rfl
  | cons a as ih =>
    by_cases h : p a
    · simp [List.dropWhile_cons, h, ih]
    · simp [List.dropWhile_cons, h]

theorem head?_dropWhile {α : Type} (p : α → Bool) (l : List α) {c : α}
    (h : (l.dropWhile p).head? = some c) : p c = false := by
  induction l with
  | nil => simp [List.dropWhile] at h
  | cons a as ih =>
    by_cases ha : p a
    · exact ih (by simpa [List.dropWhile_cons, ha] using h)
    · have hac : a = c := by simpa [List.dropWhile_cons, ha] using h
      subst hac
      simpa using ha

theorem dropWhile_eq_self {α : Type} (p : α → Bool) (l : List α)
    (h : ∀ c, l.head? = some c → p c = false) : l.dropWhile p = l := by
  cases l with
  | nil => rfl
  | cons a as =>
    have ha := h a rfl
    simp [List.dropWhile_cons, ha]

theorem data_mk (l : List Char) : (⟨l⟩ : String).data = l := rfl

theorem jsTrimStart_data (s : String) :
    (jsTrimStart s).data = s.data.dropWhile jsIsWhitespace := rfl

theorem jsTrimEnd_data (s : String) :
    (jsTrimEnd s).data = (s.data.reverse.dropWhile jsIsWhitespace).reverse := rfl

theorem jsToLowerCase_data (s : String) :
    (jsToLowerCase s).data = s.data.map Char.toLower := rfl

theorem jsReplaceFirstSpace_data (s : String) :
    (jsReplaceFirstSpace s).data = replaceFirstSpace s.data := rfl

theorem space_data : (" " : String).data = [' '] := rfl

theorem empty_data : ("" : String).data = [] := rfl

theorem append_empty_string (s : String) : s ++ "" = s := by
  apply String.ext
  simp [String.data_append, empty_data]

theorem jsTrimEnd_idem (s : String) : jsTrimEnd (jsTrimEnd s) = jsTrimEnd s := by
  apply String.ext
  simp [jsTrimEnd_data, List.reverse_reverse, dropWhile_idem]

theorem jsTrimEnd_append_space (s : String) : jsTrimEnd (s ++ " ") = jsTrimEnd s := by
  apply String.ext
  simp [jsTrimEnd_data, String.data_append, space_data, List.reverse_append,
        List.dropWhile_cons, show jsIsWhitespace ' ' = true from by decide]

theorem toNat_ofNat_valid (n : Nat) (h : n.isValidChar) : (Char.ofNat n).toNat = n := by
  simp [Char.ofNat, h, Char.ofNatAux, Char.toNat, UInt32.toNat, UInt32.ofNatCore]

theorem toLower_toNat_of_upper (c : Char) (h1 : 65 ≤ c.toNat) (h2 : c.toNat ≤ 90) :
    (Char.toLower c).toNat = c.toNat + 32 := by
  have hv : (c.toNat + 32).isValidChar := Or.inl (by omega)
  simp only [Char.toLower]
  rw [if_pos ⟨h1, h2⟩]
  exact toNat_ofNat_valid _ hv

theorem toLower_eq_self_of_not_upper (c : Char) (h : ¬(65 ≤ c.toNat ∧ c.toNat ≤ 90)) :
    Char.toLower c = c := by
  simp only [Char.toLower]
  rw [if_neg]
  exact fun hc => h ⟨hc.1, hc.2⟩

theorem toLower_idem (c : Char) : (Char.toLower c).toLower = Char.toLower c := by
  by_cases h : 65 ≤ c.toNat ∧ c.toNat ≤ 90
  · have ha := toLower_toNat_of_upper c h.1 h.2
    exact toLower_eq_self_of_not_upper _ (by omega)
  · rw [toLower_eq_self_of_not_upper c h]
    exact toLower_eq_self_of_not_upper c h

theorem ws_false_of_range (c : Char) (h1 : 65 ≤ c.toNat) (h2 : c.toNat ≤ 122) :
    jsIsWhitespace c = false := by
  have hmem : c ∉ jsWhitespaceChars := by
    intro hmem
    fin_cases hmem <;> revert h1 h2 <;> decide
  simpa [jsIsWhitespace] using hmem

theorem ws_toLower (c : Char) : jsIsWhitespace (Char.toLower c) = jsIsWhitespace c := by
  by_cases h : 65 ≤ c.toNat ∧ c.toNat ≤ 90
  · have ha := toLower_toNat_of_upper c h.1 h.2
    rw [ws_false_of_range c h.1 (by omega), ws_false_of_range _ (by omega) (by omega)]
  · rw [toLower_eq_self_of_not_upper c h]

theorem toLower_eq_space_iff (c : Char) : Char.toLower c = ' ' ↔ c = ' ' := by
  by_cases h : 65 ≤ c.toNat ∧ c.toNat ≤ 90
  · have ht := toLower_toNat_of_upper c h.1 h.2
    constructor
    · intro he
      rw [he] at ht
      have h32 : (' ' : Char).toNat = 32 := by decide
      exfalso
      omega
    · intro he
      rw [he] at h
      exact absurd h (by decide)
  · rw [toLower_eq_self_of_not_upper c h]

theorem replaceFirstSpace_of_not_mem (l : List Char) (h : ' ' ∉ l) :
    replaceFirstSpace l = l := by
  induction l with
  | nil => rfl
  | cons c cs ih =>
    simp only [List.mem_cons, not_or] at h
    have hc : ¬(c = ' ') := fun he => h.1 he.symm
    simp [replaceFirstSpace, hc, ih h.2]

theorem not_mem_replaceFirstSpace (l : List Char) (h : l.count ' ' ≤ 1) :
    ' ' ∉ replaceFirstSpace l := by
  induction l with
  | nil => simp [replaceFirstSpace]
  | cons c cs ih =>
    by_cases hc : c = ' '
    · subst hc
      have hcc : (' ' :: cs).count ' ' = cs.count ' ' + 1 := by simp [List.count_cons]
      have hcnt : cs.count ' ' = 0 := by omega
      have hnm : ' ' ∉ cs := List.count_eq_zero.mp hcnt
      simp [replaceFirstSpace, hnm]
    · have hcc : (c :: cs).count ' ' = cs.count ' ' := by simp [List.count_cons, hc]
      have hcnt : cs.count ' ' ≤ 1 := by omega
      simp [replaceFirstSpace, hc, Ne.symm hc, ih hcnt]

theorem replaceFirstSpace_cons_space (cs : List Char) :
    replaceFirstSpace (' ' :: cs) = '-' :: cs := by
  show (if ' ' = ' ' then '-' :: cs else ' ' :: replaceFirstSpace cs) = '-' :: cs
  rw [if_pos rfl]

theorem replaceFirstSpace_cons_of_ne (c : Char) (cs : List Char) (hc : ¬(c = ' ')) :
    replaceFirstSpace (c :: cs) = c :: replaceFirstSpace cs := by
  show (if c = ' ' then '-' :: cs else c :: replaceFirstSpace cs) = c :: replaceFirstSpace cs
  rw [if_neg hc]

theorem replaceFirstSpace_cons_shape (c : Char) (cs : List Char) :
    ∃ e es, replaceFirstSpace (c :: cs) = e :: es := by
  by_cases hc : c = ' '
  · exact ⟨'-', cs, by simp [replaceFirstSpace, hc]⟩
  · exact ⟨c, replaceFirstSpace cs, by simp [replaceFirstSpace, hc]⟩

theorem getLast?_replaceFirstSpace (l : List Char) (d : Char)
    (hd : l.getLast? = some d) (hds : d ≠ ' ') :
    (replaceFirstSpace l).getLast? = some d := by
  induction l with
  | nil => simp at hd
  | cons c cs ih =>
    cases cs with
    | nil =>
      simp at hd
      subst hd
      simp [replaceFirstSpace, hds]
    | cons c2 cs2 =>
      have hd2 : (c2 :: cs2).getLast? = some d := by
        rw [← List.getLast?_cons_cons]
        exact hd
      by_cases hc : c = ' '
      · subst hc
        rw [replaceFirstSpace_cons_space, List.getLast?_cons_cons]
        exact hd2
      · obtain ⟨e, es, hes⟩ := replaceFirstSpace_cons_shape c2 cs2
        have hrec := ih hd2
        rw [replaceFirstSpace_cons_of_ne c _ hc]
        rw [hes] at hrec ⊢
        rw [List.getLast?_cons_cons]
        exact hrec

/-!
## Helper lemmas: the processed tag shape
-/

theorem head?_trimmed (t : String) {c : Char}
    (h : (jsTrimEnd (jsTrimStart t)).data.head? = some c) : jsIsWhitespace c = false := by
  have hsuf : ((jsTrimStart t).data.reverse.dropWhile jsIsWhitespace)
      <:+ (jsTrimStart t).data.reverse := List.dropWhile_suffix _
  have hpre := hsuf.reverse
  rw [List.reverse_reverse] at hpre
  obtain ⟨rest, hrest⟩ := hpre
  have hl : ((jsTrimStart t).data).head? = some c := by
    rw [← hrest]
    rw [jsTrimEnd_data] at h
    cases hm : ((jsTrimStart t).data.reverse.dropWhile jsIsWhitespace).reverse with
    | nil => rw [hm] at h; simp at h
    | cons a ms =>
      rw [hm] at h
      simp at h
      subst h
      simp
  rw [jsTrimStart_data] at hl
  exact head?_dropWhile _ _ hl

theorem getLast?_trimmed (t : String) {d : Char}
    (h : (jsTrimEnd (jsTrimStart t)).data.getLast? = some d) : jsIsWhitespace d = false := by
  have hrev : (jsTrimEnd (jsTrimStart t)).data.reverse
      = (jsTrimStart t).data.reverse.dropWhile jsIsWhitespace := by
    simp [jsTrimEnd_data, List.reverse_reverse]
  have hh : ((jsTrimStart t).data.reverse.dropWhile jsIsWhitespace).head? = some d := by
    rw [← hrev, List.head?_reverse]
    exact h
  exact head?_dropWhile _ _ hh

theorem trims_eq_self_of_ends (s : String)
    (hh : ∀ c, s.data.head? = some c → jsIsWhitespace c = false)
    (hl : ∀ c, s.data.getLast? = some c → jsIsWhitespace c = false) :
    jsTrimEnd (jsTrimStart s) = s := by
  have h1 : jsTrimStart s = s := by
    apply String.ext
    rw [jsTrimStart_data]
    exact dropWhile_eq_self _ _ hh
  rw [h1]
  apply String.ext
  rw [jsTrimEnd_data]
  have h2 : s.data.reverse.dropWhile jsIsWhitespace = s.data.reverse := by
    apply dropWhile_eq_self
    intro c hc
    rw [List.head?_reverse] at hc
    exact hl c hc
  rw [h2, List.reverse_reverse]

theorem processedTag_fixed (t : String)
    (h : (jsTrimEnd (jsTrimStart t)).data.count ' ' ≤ 1) :
    jsToLowerCase (jsReplaceFirstSpace (jsTrimEnd (jsTrimStart
      (jsToLowerCase (jsReplaceFirstSpace (jsTrimEnd (jsTrimStart t)))))))
    = jsToLowerCase (jsReplaceFirstSpace (jsTrimEnd (jsTrimStart t))) := by
  have hwssp : jsIsWhitespace ' ' = true := by decide
  have hxdata : (jsToLowerCase (jsReplaceFirstSpace (jsTrimEnd (jsTrimStart t)))).data
      = (replaceFirstSpace (jsTrimEnd (jsTrimStart t)).data).map Char.toLower := rfl
  -- no space survives the replacement, given at most one space in the trimmed tag
  have hnosp : ' ' ∉ (jsToLowerCase (jsReplaceFirstSpace (jsTrimEnd (jsTrimStart t)))).data := by
    rw [hxdata]
    intro hmem
    obtain ⟨a, hmema, hae⟩ := List.mem_map.mp hmem
    rw [toLower_eq_space_iff] at hae
    subst hae
    exact not_mem_replaceFirstSpace _ h hmema
  -- the processed tag has no leading white space
  have hhead : ∀ c, (jsToLowerCase (jsReplaceFirstSpace (jsTrimEnd (jsTrimStart t)))).data.head?
      = some c → jsIsWhitespace c = false := by
    intro c hc
    rw [hxdata] at hc
    cases hm : (jsTrimEnd (jsTrimStart t)).data with
    | nil => rw [hm] at hc; simp [replaceFirstSpace] at hc
    | cons a ms =>
      have ha : jsIsWhitespace a = false := head?_trimmed t (by rw [hm]; rfl)
      have hane : ¬(a = ' ') := fun he => by rw [he] at ha; rw [hwssp] at ha; exact Bool.true_eq_false.mp ha
      rw [hm] at hc
      rw [replaceFirstSpace_cons_of_ne a _ hane] at hc
      simp only [List.map_cons, List.head?_cons] at hc
      have : Char.toLower a = c := by simpa using hc
      subst this
      rw [ws_toLower]
      exact ha
  -- the processed tag has no trailing white space
  have hlast : ∀ c, (jsToLowerCase (jsReplaceFirstSpace (jsTrimEnd (jsTrimStart t)))).data.getLast?
      = some c → jsIsWhitespace c = false := by
    intro c hc
    rw [hxdata] at hc
    cases hm : (jsTrimEnd (jsTrimStart t)).data with
    | nil => rw [hm] at hc; simp [replaceFirstSpace] at hc
    | cons a ms =>
      rw [hm] at hc
      rw [List.getLast?_map] at hc
      have hne : ∃ d, (a :: ms).getLast? = some d := by
        cases hgl : (a :: ms).getLast? with
        | none => exact absurd hgl (by simp [List.getLast?_eq_none_iff])
        | some d => exact ⟨d, rfl⟩
      obtain ⟨d, hd⟩ := hne
      have hdws : jsIsWhitespace d = false := getLast?_trimmed t (by rw [hm]; exact hd)
      have hdne : d ≠ ' ' := fun he => by rw [he, hwssp] at hdws; exact Bool.true_eq_false.mp hdws
      rw [getLast?_replaceFirstSpace _ d hd hdne] at hc
      have : Char.toLower d = c := by simpa using hc
      subst this
      rw [ws_toLower]
      exact hdws
  rw [trims_eq_self_of_ends _ hhead hlast]
  have hrep : jsReplaceFirstSpace (jsToLowerCase (jsReplaceFirstSpace (jsTrimEnd (jsTrimStart t))))
      = jsToLowerCase (jsReplaceFirstSpace (jsTrimEnd (jsTrimStart t))) := by
    apply String.ext
    rw [jsReplaceFirstSpace_data]
    exact replaceFirstSpace_of_not_mem _ hnosp
  rw [hrep]
  apply String.ext
  rw [jsToLowerCase_data, hxdata, List.map_map]
  exact List.map_congr_left fun a _ => toLower_idem a

theorem jsTrimEnd_append_empty_link (t : String) : jsTrimEnd (t ++ " " ++ "") = jsTrimEnd t := by
  rw [append_empty_string, jsTrimEnd_append_space]

/-!
## Claim C1: fan-out invocation counts of the title and design stages
-/

/-- C1: for every meeting, the Video-Title and Image-Design stages each
issue exactly 3 generative-API invocations when the meeting has exactly 1
presentation, and exactly N+1 invocations (one per presentation plus one
over all presentations combined) when it has N>1 presentations. -/
theorem c1_fanout_invocation_counts (ps : List Pipeline.Presentation) :
    (ps.length = 1 →
      (Pipeline.youTubeTitlePrompts ps).length = 3
        ∧ (Pipeline.designIdeaPrompts ps).length = 3)
    ∧ (1 < ps.length →
      (Pipeline.youTubeTitlePrompts ps).length = ps.length + 1
        ∧ (Pipeline.designIdeaPrompts ps).length = ps.length + 1) := by
  constructor
  · intro h
    simp [Pipeline.youTubeTitlePrompts, Pipeline.designIdeaPrompts, h]
  · intro h
    have h1 : ¬(ps.length = 1) := by omega
    simp [Pipeline.youTubeTitlePrompts, Pipeline.designIdeaPrompts, h1]

/-- Witness for C1 at a one-presentation and a two-presentation meeting. -/
theorem c1_fanout_invocation_counts_witness :
    (Pipeline.youTubeTitlePrompts [pIntro]).length = 3
    ∧ (Pipeline.designIdeaPrompts [pIntro]).length = 3
    ∧ (Pipeline.youTubeTitlePrompts [pIntro, pSecond]).length = 3
    ∧ (Pipeline.designIdeaPrompts [pIntro, pSecond]).length = 3 := by
  refine ⟨((c1_fanout_invocation_counts [pIntro]).1 (by decide)).1,
          ((c1_fanout_invocation_counts [pIntro]).1 (by decide)).2, ?_, ?_⟩
  · have h := ((c1_fanout_invocation_counts [pIntro, pSecond]).2 (by decide)).1
    simpa using h
  · have h := ((c1_fanout_invocation_counts [pIntro, pSecond]).2 (by decide)).2
    simpa using h

/-!
## Claim C2: the tag post-processing transform
-/

/-- C2, counterexample: the transform is not idempotent, because ECMAScript
`replace(" ", "-")` substitutes only the first space; a tag with two spaces
gains a second hyphen on the second application. -/
theorem c2_tag_transform_not_idempotent :
    Pipeline.tagTool (Pipeline.tagTool ["a b c"]) ≠ Pipeline.tagTool ["a b c"] := by
  decide

/-- C2, amended: the transform is idempotent on every list of tags whose
trimmed form contains at most one space — in particular on all tags of the
one-or-two-word shape the stage requests. -/
theorem c2_tag_transform_idempotent_amended (tags : List String)
    (h : ∀ t ∈ tags, (jsTrimEnd (jsTrimStart t)).data.count ' ' ≤ 1) :
    Pipeline.tagTool (Pipeline.tagTool tags) = Pipeline.tagTool tags := by
  unfold Pipeline.tagTool
  rw [List.map_map]
  exact List.map_congr_left fun t ht => processedTag_fixed t (h t ht)

/-- Witness for the amended C2 on concrete one-space tags. -/
theorem c2_tag_transform_idempotent_amended_witness :
    Pipeline.tagTool (Pipeline.tagTool ["Machine Learning", " Rust "])
      = Pipeline.tagTool ["Machine Learning", " Rust "] :=
  c2_tag_transform_idempotent_amended ["Machine Learning", " Rust "] (by decide)

/-!
## Claim C3: social-post suffixing is a pure append
-/

/-- C3: for every post and link (also absent or empty), each suffixed post
equals the post, a space and the link, trimmed of trailing white space; with
an absent or empty link this is the post trimmed of trailing white space
with no trailing space added, and re-application changes nothing. -/
theorem c3_addLinkToTweets_pure_append (p : Pipeline.Presentation) (tws : List String)
    (url : Option String) (h : p.tweet = some tws) :
    Pipeline.addLinkToTweets p url
      = .ok { p with tweet := some (tws.map fun t => jsTrimEnd (t ++ " " ++ url.getD "")) }
    ∧ ((url = none ∨ url = some "") →
        (tws.map fun t => jsTrimEnd (t ++ " " ++ url.getD "")) = tws.map jsTrimEnd
        ∧ Pipeline.addLinkToTweets
            { p with tweet := some (tws.map fun t => jsTrimEnd (t ++ " " ++ url.getD "")) } url
          = .ok { p with tweet := some (tws.map fun t => jsTrimEnd (t ++ " " ++ url.getD "")) }) := by
  have hidem : ((tws.map jsTrimEnd).map fun tweet => jsTrimEnd tweet) = tws.map jsTrimEnd := by
    rw [List.map_map]
    exact List.map_congr_left fun t _ => jsTrimEnd_idem t
  cases url with
  | none =>
    have hmap : (tws.map fun t => jsTrimEnd (t ++ " " ++ (none : Option String).getD ""))
        = tws.map jsTrimEnd :=
      List.map_congr_left fun t _ => jsTrimEnd_append_empty_link t
    have hstep : Pipeline.addLinkToTweets p none
        = .ok { p with tweet := some (tws.map fun tweet => jsTrimEnd tweet) } := by
      simp [Pipeline.addLinkToTweets, h]
    have hstep2 : Pipeline.addLinkToTweets { p with tweet := some (tws.map jsTrimEnd) } none
        = .ok { p with tweet := some ((tws.map jsTrimEnd).map fun tweet => jsTrimEnd tweet) } := by
      simp [Pipeline.addLinkToTweets]
    refine ⟨?_, fun _ => ⟨hmap, ?_⟩⟩
    · rw [hstep, hmap]
    · rw [hmap, hstep2, hidem]
  | some u =>
    by_cases hu : u = ""
    · subst hu
      have hmap : (tws.map fun t => jsTrimEnd (t ++ " " ++ (some "").getD ""))
          = tws.map jsTrimEnd :=
        List.map_congr_left fun t _ => jsTrimEnd_append_empty_link t
      have hstep : Pipeline.addLinkToTweets p (some "")
          = .ok { p with tweet := some (tws.map fun tweet => jsTrimEnd tweet) } := by
        simp [Pipeline.addLinkToTweets, h]
      have hstep2 : Pipeline.addLinkToTweets { p with tweet := some (tws.map jsTrimEnd) } (some "")
          = .ok { p with tweet := some ((tws.map jsTrimEnd).map fun tweet => jsTrimEnd tweet) } := by
        simp [Pipeline.addLinkToTweets]
      refine ⟨?_, fun _ => ⟨hmap, ?_⟩⟩
      · rw [hstep, hmap]
      · rw [hmap, hstep2, hidem]
    · refine ⟨?_, fun hcon => ?_⟩
      · simp only [Pipeline.addLinkToTweets, h, if_neg hu]
        rfl
      · rcases hcon with hcon | hcon
        · exact absurd hcon (by simp)
        · exact absurd hcon (by simp [hu])

/-- Witness for C3 on a concrete presentation with three posts. -/
theorem c3_addLinkToTweets_pure_append_witness :
    Pipeline.addLinkToTweets
        { pIntro with tweet := some ["Tweet one ", "Tweet two", "Tweet three"] }
        (some "https://www.meetup.com/slug/1")
      = .ok { pIntro with tweet := some (["Tweet one ", "Tweet two", "Tweet three"].map
            fun t => jsTrimEnd (t ++ " " ++ (some "https://www.meetup.com/slug/1").getD "")) } :=
  (c3_addLinkToTweets_pure_append
    { pIntro with tweet := some ["Tweet one ", "Tweet two", "Tweet three"] }
    ["Tweet one ", "Tweet two", "Tweet three"]
    (some "https://www.meetup.com/slug/1") rfl).1

/-!
## Claim C10: suffixing a presentation without tweets throws
-/

/-- C10: for every presentation whose `tweet` field is absent,
`addLinkToTweets` throws "Presentation does not contain any tweets" instead
of returning the presentation unchanged. -/
theorem c10_missing_tweets_throws (p : Pipeline.Presentation) (url : Option String)
    (h : p.tweet = none) :
    Pipeline.addLinkToTweets p url = .error "Presentation does not contain any tweets" := by
  simp only [Pipeline.addLinkToTweets, h]

/-- Witness for C10 on a concrete presentation without tweets. -/
theorem c10_missing_tweets_throws_witness :
    Pipeline.addLinkToTweets pIntro (some "https://www.meetup.com/slug/1")
      = .error "Presentation does not contain any tweets" :=
  c10_missing_tweets_throws pIntro (some "https://www.meetup.com/slug/1") rfl

/-!
## Helper lemmas: schema validation
-/

theorem parseList_ok_length {α β : Type} (f : α → Except String β) :
    ∀ (l : List α) (bs : List β), Models.parseList f l = .ok bs → bs.length = l.length := by
  intro l
  induction l with
  | nil =>
    intro bs h
    simp [Models.parseList] at h
    simp [h]
  | cons a as ih =>
    intro bs h
    unfold Models.parseList at h
    cases hfa : f a with
    | error e => rw [hfa] at h; exact absurd h (by simp)
    | ok b =>
      rw [hfa] at h
      cases hrec : Models.parseList f as with
      | error e => rw [hrec] at h; exact absurd h (by simp)
      | ok bs2 =>
        rw [hrec] at h
        injection h with h2
        rw [← h2]
        have := ih bs2 hrec
        simp [this]

/-!
## Claim C7: validation requires a non-empty presentations array
-/

/-- C7: a meeting JSON missing `presentations` or with an empty
`presentations` array fails Record Schema validation, and every validated
meeting has at least one presentation. -/
theorem c7_presentations_required_nonempty (r : Models.RawMeeting) :
    ((r.presentations = none ∨ r.presentations = some []) →
      (Models.meetingParse r).isOk = false)
    ∧ ∀ m, Models.meetingParse r = .ok m → 1 ≤ m.presentations.length := by
  constructor
  · intro hp
    unfold Models.meetingParse
    cases hmd : Models.coerceDateOptional r.meetingDate with
    | error e => rfl
    | ok md =>
      cases hmt : Models.meetingTypeOptionalParse r.meetingType with
      | error e => rfl
      | ok mt =>
        rcases hp with hp | hp <;> rw [hp] <;> rfl
  · intro m hm
    unfold Models.meetingParse at hm
    split at hm
    · exact absurd hm (by simp)
    split at hm
    · exact absurd hm (by simp)
    split at hm
    · exact absurd hm (by simp)
    split at hm
    · exact absurd hm (by simp)
    split at hm
    · exact absurd hm (by simp)
    split at hm
    · exact absurd hm (by simp)
    injection hm with hmm
    have hl := parseList_ok_length Models.presentationParse _ _ (by assumption)
    rw [← hmm]
    simp only [Models.Meeting.mk.injEq]
    simp
    omega

/-- Witness for C7: one meeting without the key, one with a validated
presentation list. -/
theorem c7_presentations_required_nonempty_witness :
    (Models.meetingParse rawMeetingNoPresentations).isOk = false
    ∧ 1 ≤ mtgParsedOne.presentations.length :=
  ⟨(c7_presentations_required_nonempty rawMeetingNoPresentations).1 (Or.inl rfl),
   (c7_presentations_required_nonempty (rawMeetingWith ["ai"] ["x", "y", "z"])).2
     mtgParsedOne (by rfl)⟩

/-!
## Claim C5: the input schema and the tag/tweet cardinality bounds
-/

/-- C5, counterexample: the input Record Schema accepts a presentation whose
`tags` array has 4 entries and whose `tweets` array has 2 entries — the
cardinality bounds live in the tool-parameter schemas, not in
`presentationSchema`. -/
theorem c5_cardinality_counterexample :
    (Models.meetingParse (rawMeetingWith ["a", "b", "c", "d"] ["x", "y"])).isOk = true
    ∧ 3 < (["a", "b", "c", "d"] : List String).length
    ∧ (["x", "y"] : List String).length ≠ 3 := by
  decide

/-- C5, amended: input validation accepts `tags` and `tweets` arrays of any
length; the at-most-3 and exactly-3 constraints are enforced on stage
responses through `tagToolParamsSchema` and `tweetToolParamsSchema`. -/
theorem c5_cardinality_amended (tags tws : List String) :
    (Models.meetingParse (rawMeetingWith tags tws)).isOk = true
    ∧ ((Pipeline.runTool tagToolParamsCheck Pipeline.tagTool (some tags)).isOk = true
        ↔ tags.length ≤ 3)
    ∧ ((Pipeline.runTool tweetToolParamsCheck Pipeline.tweetTool (some tws)).isOk = true
        ↔ tws.length = 3) := by
  refine ⟨rfl, ?_, ?_⟩
  · by_cases hle : tags.length ≤ 3
    · simp [Pipeline.runTool, tagToolParamsCheck, hle, Except.isOk, Except.toBool]
    · simp [Pipeline.runTool, tagToolParamsCheck, hle, Except.isOk, Except.toBool]
  · by_cases hle : tws.length = 3
    · simp [Pipeline.runTool, tweetToolParamsCheck, hle, Except.isOk, Except.toBool]
    · simp [Pipeline.runTool, tweetToolParamsCheck, hle, Except.isOk, Except.toBool]

/-!
## Claim C6: date coercion and the YYYY-MM-DD format
-/

theorem hyphen_data : ("-" : String).data = ['-'] := rfl

theorem digitChar_isDigit (k : Nat) (h : k < 10) : (Nat.digitChar k).isDigit = true := by
  interval_cases k <;> decide

theorem charDigit_digitChar (k : Nat) (h : k < 10) : charDigit (Nat.digitChar k) = k := by
  interval_cases k <;> decide

theorem parseDigits2_of_digits (a b : Nat) (rest : List Char) (ha : a < 10) (hb : b < 10) :
    parseDigits 2 (Nat.digitChar a :: Nat.digitChar b :: rest) = some (10 * a + b, rest) := by
  simp [parseDigits, parseDigitsAux, digitChar_isDigit _ ha, digitChar_isDigit _ hb,
        charDigit_digitChar _ ha, charDigit_digitChar _ hb]
  omega

theorem parseDigits4_of_digits (a b c d : Nat) (rest : List Char)
    (ha : a < 10) (hb : b < 10) (hc : c < 10) (hd : d < 10) :
    parseDigits 4
        (Nat.digitChar a :: Nat.digitChar b :: Nat.digitChar c :: Nat.digitChar d :: rest)
      = some (1000 * a + 100 * b + 10 * c + d, rest) := by
  simp [parseDigits, parseDigitsAux, digitChar_isDigit _ ha, digitChar_isDigit _ hb,
        digitChar_isDigit _ hc, digitChar_isDigit _ hd, charDigit_digitChar _ ha,
        charDigit_digitChar _ hb, charDigit_digitChar _ hc, charDigit_digitChar _ hd]
  omega

theorem jsDateFromMonthTail_digits (y mo d : Nat) (hd1 : 1 ≤ d) (hd2 : d ≤ daysInMonth y mo) :
    jsDateFromMonthTail y mo
        ('-' :: Nat.digitChar (d / 10 % 10) :: Nat.digitChar (d % 10) :: [])
      = some ⟨y, mo, d⟩ := by
  have h7 : d / 10 % 10 < 10 := Nat.mod_lt _ (by omega)
  have h8 : d % 10 < 10 := Nat.mod_lt _ (by omega)
  have hdim : 1 ≤ daysInMonth y mo := by omega
  have hd99 : d ≤ 99 := by
    have : daysInMonth y mo ≤ 31 := by
      unfold daysInMonth
      split
      · split <;> omega
      · split <;> omega
    omega
  have hstep : jsDateFromMonthTail y mo
      ('-' :: Nat.digitChar (d / 10 % 10) :: Nat.digitChar (d % 10) :: [])
      = match parseDigits 2 (Nat.digitChar (d / 10 % 10) :: Nat.digitChar (d % 10) :: []) with
        | none => none
        | some (dd, r4) =>
          if dd < 1 ∨ daysInMonth y mo < dd then none
          else
            match r4 with
            | [] => some ⟨y, mo, dd⟩
            | _ => none := rfl
  rw [hstep, parseDigits2_of_digits _ _ _ h7 h8,
      show 10 * (d / 10 % 10) + d % 10 = d from by omega]
  show ite (d < 1 ∨ daysInMonth y mo < d) none (some (⟨y, mo, d⟩ : JsDate)) = some ⟨y, mo, d⟩
  rw [if_neg (by omega)]

theorem jsDateFromYearTail_digits (y mo d : Nat) (hmo1 : 1 ≤ mo) (hmo2 : mo ≤ 12)
    (hd1 : 1 ≤ d) (hd2 : d ≤ daysInMonth y mo) :
    jsDateFromYearTail y
        ('-' :: Nat.digitChar (mo / 10 % 10) :: Nat.digitChar (mo % 10)
          :: '-' :: Nat.digitChar (d / 10 % 10) :: Nat.digitChar (d % 10) :: [])
      = some ⟨y, mo, d⟩ := by
  have h5 : mo / 10 % 10 < 10 := Nat.mod_lt _ (by omega)
  have h6 : mo % 10 < 10 := Nat.mod_lt _ (by omega)
  have hstep : jsDateFromYearTail y
      ('-' :: Nat.digitChar (mo / 10 % 10) :: Nat.digitChar (mo % 10)
        :: '-' :: Nat.digitChar (d / 10 % 10) :: Nat.digitChar (d % 10) :: [])
      = match parseDigits 2
            (Nat.digitChar (mo / 10 % 10) :: Nat.digitChar (mo % 10)
              :: '-' :: Nat.digitChar (d / 10 % 10) :: Nat.digitChar (d % 10) :: []) with
        | none => none
        | some (mm, r2) =>
          if mm < 1 ∨ 12 < mm then none else jsDateFromMonthTail y mm r2 := rfl
  rw [hstep, parseDigits2_of_digits _ _ _ h5 h6,
      show 10 * (mo / 10 % 10) + mo % 10 = mo from by omega]
  show ite (mo < 1 ∨ 12 < mo) none
      (jsDateFromMonthTail y mo
        ('-' :: Nat.digitChar (d / 10 % 10) :: Nat.digitChar (d % 10) :: []))
      = some ⟨y, mo, d⟩
  rw [if_neg (by omega)]
  exact jsDateFromMonthTail_digits y mo d hd1 hd2

theorem jsDateParse_format (y mo d : Nat) (hy : y ≤ 9999) (hmo1 : 1 ≤ mo) (hmo2 : mo ≤ 12)
    (hd1 : 1 ≤ d) (hd2 : d ≤ daysInMonth y mo) :
    jsDateParse (formatYYYYMMDD y mo d) = some ⟨y, mo, d⟩ := by
  have h1 : y / 1000 % 10 < 10 := Nat.mod_lt _ (by omega)
  have h2 : y / 100 % 10 < 10 := Nat.mod_lt _ (by omega)
  have h3 : y / 10 % 10 < 10 := Nat.mod_lt _ (by omega)
  have h4 : y % 10 < 10 := Nat.mod_lt _ (by omega)
  have hdata : (formatYYYYMMDD y mo d).data
      = Nat.digitChar (y / 1000 % 10) :: Nat.digitChar (y / 100 % 10)
        :: Nat.digitChar (y / 10 % 10) :: Nat.digitChar (y % 10)
        :: '-' :: Nat.digitChar (mo / 10 % 10) :: Nat.digitChar (mo % 10)
        :: '-' :: Nat.digitChar (d / 10 % 10) :: Nat.digitChar (d % 10) :: [] := by
    simp [formatYYYYMMDD, pad4, pad2, String.data_append, hyphen_data, data_mk]
  unfold jsDateParse
  rw [hdata, parseDigits4_of_digits _ _ _ _ _ h1 h2 h3 h4,
      show 1000 * (y / 1000 % 10) + 100 * (y / 100 % 10) + 10 * (y / 10 % 10) + y % 10 = y
        from by omega]
  show jsDateFromYearTail y
      ('-' :: Nat.digitChar (mo / 10 % 10) :: Nat.digitChar (mo % 10)
        :: '-' :: Nat.digitChar (d / 10 % 10) :: Nat.digitChar (d % 10) :: [])
      = some ⟨y, mo, d⟩
  exact jsDateFromYearTail_digits y mo d hmo1 hmo2 hd1 hd2

/-- C6, counterexample: the meeting-date string "2024-02" is not in
`YYYY-MM-DD` format, yet Record Schema validation accepts it (JavaScript
`new Date` parses every date-only ISO form), refuting "for every meeting-date
string in any other format, validation fails". -/
theorem c6_date_format_counterexample :
    (Models.meetingParse rawMeetingMonthDate).isOk = true
    ∧ isYYYYMMDDFormat "2024-02" = false := by
  decide

/-- C6, amended: every `YYYY-MM-DD` string denoting a valid calendar date is
accepted and converted to a date value, and strings that parse to no date
are rejected; but other ECMAScript date forms such as `YYYY-MM` are also
accepted, so acceptance is not exclusive to `YYYY-MM-DD`. -/
theorem c6_date_coercion_amended (y mo d : Nat) (hy : y ≤ 9999) (hmo1 : 1 ≤ mo)
    (hmo2 : mo ≤ 12) (hd1 : 1 ≤ d) (hd2 : d ≤ daysInMonth y mo) :
    Models.coerceDateOptional (some (formatYYYYMMDD y mo d)) = .ok (some ⟨y, mo, d⟩)
    ∧ Models.coerceDateOptional (some "2024-02") = .ok (some ⟨2024, 2, 1⟩)
    ∧ Models.coerceDateOptional (some "hello") = .error "Invalid date" := by
  refine ⟨?_, by rfl, by rfl⟩
  have hp := jsDateParse_format y mo d hy hmo1 hmo2 hd1 hd2
  unfold Models.coerceDateOptional
  show (match jsDateParse (formatYYYYMMDD y mo d) with
        | some dd => Except.ok (some dd)
        | none => Except.error "Invalid date") = Except.ok (some ⟨y, mo, d⟩)
  rw [hp]

/-- Witness for the amended C6 at the spec's example date. -/
theorem c6_date_coercion_amended_witness :
    Models.coerceDateOptional (some (formatYYYYMMDD 2024 2 14)) = .ok (some ⟨2024, 2, 14⟩) :=
  (c6_date_coercion_amended 2024 2 14 (by decide) (by decide) (by decide) (by decide)
    (by decide)).1

/-!
## Helper lemmas: pipeline stage inversions
-/

theorem except_map_eq_ok {α β : Type} (f : α → β) (e : Except String α) (b : β)
    (h : e.map f = .ok b) : ∃ a, e = .ok a ∧ b = f a := by
  cases e with
  | error err => simp [Except.map] at h
  | ok a => exact ⟨a, rfl, by simpa [Except.map] using h.symm⟩

theorem traverseIdx_isOk_of_all {α β : Type} (f : Nat → α → Except String β) (l : List α)
    (i0 : Nat) (h : ∀ i a, ∃ b, f i a = .ok b) :
    ∃ bs, Pipeline.traverseIdx f l i0 = .ok bs ∧ bs.length = l.length := by
  induction l generalizing i0 with
  | nil => exact ⟨[], rfl, rfl⟩
  | cons a as ih =>
    obtain ⟨b, hb⟩ := h i0 a
    obtain ⟨bs, hbs, hlen⟩ := ih (i0 + 1)
    refine ⟨b :: bs, ?_, by simp [hlen]⟩
    unfold Pipeline.traverseIdx
    rw [hb, hbs]

theorem traverseIdx_ok_length {α β : Type} (f : Nat → α → Except String β) :
    ∀ (l : List α) (i0 : Nat) (bs : List β),
      Pipeline.traverseIdx f l i0 = .ok bs → bs.length = l.length := by
  intro l
  induction l with
  | nil =>
    intro i0 bs h
    simp [Pipeline.traverseIdx] at h
    simp [h]
  | cons a as ih =>
    intro i0 bs h
    unfold Pipeline.traverseIdx at h
    cases hfa : f i0 a with
    | error e => rw [hfa] at h; exact absurd h (by simp)
    | ok b =>
      rw [hfa] at h
      cases hrec : Pipeline.traverseIdx f as (i0 + 1) with
      | error e => rw [hrec] at h; exact absurd h (by simp)
      | ok bs2 =>
        rw [hrec] at h
        injection h with h2
        rw [← h2]
        have := ih (i0 + 1) bs2 hrec
        simp [this]

theorem traverseIdx_ok_mem {α β : Type} (f : Nat → α → Except String β) :
    ∀ (l : List α) (i0 : Nat) (bs : List β),
      Pipeline.traverseIdx f l i0 = .ok bs →
        ∀ b ∈ bs, ∃ i a, a ∈ l ∧ f i a = .ok b := by
  intro l
  induction l with
  | nil =>
    intro i0 bs h b hb
    simp [Pipeline.traverseIdx] at h
    rw [h] at hb
    exact absurd hb (by simp)
  | cons a as ih =>
    intro i0 bs h b hb
    unfold Pipeline.traverseIdx at h
    cases hfa : f i0 a with
    | error e => rw [hfa] at h; exact absurd h (by simp)
    | ok b0 =>
      rw [hfa] at h
      cases hrec : Pipeline.traverseIdx f as (i0 + 1) with
      | error e => rw [hrec] at h; exact absurd h (by simp)
      | ok bs2 =>
        rw [hrec] at h
        injection h with h2
        rw [← h2] at hb
        rcases List.mem_cons.mp hb with hb | hb
        · exact ⟨i0, a, List.mem_cons_self a as, by rw [hfa, hb]⟩
        · obtain ⟨i, a2, hmem, hfa2⟩ := ih (i0 + 1) bs2 hrec b hb
          exact ⟨i, a2, List.mem_cons_of_mem a hmem, hfa2⟩

theorem addTagsStage_inv (o : Pipeline.Oracle) (m m' : Pipeline.Meeting)
    (h : Pipeline.addTagsStage o m = .ok m') :
    ∃ ps, m' = { m with presentations := ps } ∧ ps.length = m.presentations.length := by
  obtain ⟨ps, hps, hm'⟩ := except_map_eq_ok _ _ _ h
  exact ⟨ps, hm', traverseIdx_ok_length _ _ _ _ hps⟩

theorem addTweetsStage_inv (o : Pipeline.Oracle) (m m' : Pipeline.Meeting)
    (h : Pipeline.addTweetsStage o m = .ok m') :
    ∃ ps, m' = { m with presentations := ps } ∧ ps.length = m.presentations.length := by
  obtain ⟨ps, hps, hm'⟩ := except_map_eq_ok _ _ _ h
  exact ⟨ps, hm', traverseIdx_ok_length _ _ _ _ hps⟩

theorem addTitlesStage_inv (o : Pipeline.Oracle) (m m' : Pipeline.Meeting)
    (h : Pipeline.addTitlesStage o m = .ok m') :
    ∃ L, Pipeline.traverseIdx
          (fun i _prompt =>
            Pipeline.generateYouTubeTitleFromPrompt (o.titleResp i) m.meetingDate m.meetingType)
          (Pipeline.youTubeTitlePrompts m.presentations) 0 = .ok L
      ∧ m' = { m with youTubeTitle := some L.flatten } := by
  obtain ⟨L, hL, hm'⟩ := except_map_eq_ok _ _ _ h
  exact ⟨L, hL, hm'⟩

theorem generateYouTubeTitleFromPrompt_inv (resp : Option (List String))
    (date : Option JsDate) (mt : Option MeetingType) (b : List String)
    (h : Pipeline.generateYouTubeTitleFromPrompt resp date mt = .ok b) :
    ∃ args, resp = some args ∧ args.length = 3
      ∧ b = Pipeline.suffixTitleWithMeetingDateAndType args date mt := by
  obtain ⟨ts, hts, hb⟩ := except_map_eq_ok _ _ _ h
  cases hr : resp with
  | none => rw [hr] at hts; exact absurd hts (by simp [Pipeline.runTool])
  | some args =>
    rw [hr] at hts
    rw [show Pipeline.runTool youTubeTitleToolParamsCheck Pipeline.youTubeTitleTool (some args)
          = if youTubeTitleToolParamsCheck args
            then .ok (Pipeline.youTubeTitleTool args)
            else .error "OpenAI did not call the tool." from rfl] at hts
    by_cases hc : youTubeTitleToolParamsCheck args = true
    · rw [if_pos hc] at hts
      injection hts with hts2
      have hlen : args.length = 3 := by
        simpa [youTubeTitleToolParamsCheck] using hc
      exact ⟨args, rfl, hlen, by rw [hb, ← hts2]; rfl⟩
    · rw [if_neg hc] at hts
      exact absurd hts (by simp)

/-!
## Claim C8: a schema-violating stage response aborts the run with no output
-/

/-- C8: when the tweet-stage response violates `tweetToolParamsSchema` (for
example two tweets instead of three) while the earlier tag stage responded
within its schema, response validation rejects it, the pipeline aborts with
the generation-contract error, and no output file is written. -/
theorem c8_contract_violation_aborts (m0 : Pipeline.Meeting) (o : Pipeline.Oracle)
    (hne : m0.presentations ≠ [])
    (htags : ∀ i, ∃ args, o.tagResp i = some args ∧ args.length ≤ 3)
    (ts : List String) (h0 : o.tweetResp 0 = some ts) (hlen : ts.length ≠ 3) :
    Pipeline.runPipeline m0 o = (.error "OpenAI did not call the tool.", []) := by
  have htag : ∀ i (p : Pipeline.Presentation),
      ∃ p', Pipeline.generateTags (o.tagResp i) p = .ok p' := by
    intro i p
    obtain ⟨args, ha, hlen3⟩ := htags i
    refine ⟨{ p with tags := some (Pipeline.tagTool args) }, ?_⟩
    simp [Pipeline.generateTags, Pipeline.runTool, ha, tagToolParamsCheck, hlen3, Except.map]
  obtain ⟨ps1, hps1, hlen1⟩ := traverseIdx_isOk_of_all _ m0.presentations 0 htag
  have hstage1 : Pipeline.addTagsStage o m0 = .ok { m0 with presentations := ps1 } := by
    unfold Pipeline.addTagsStage
    rw [hps1]
    rfl
  obtain ⟨q, rest, hqr⟩ : ∃ q rest, ps1 = q :: rest := by
    cases hc : ps1 with
    | nil =>
      rw [hc] at hlen1
      exact absurd (List.length_eq_zero.mp hlen1.symm) hne
    | cons q rest => exact ⟨q, rest, rfl⟩
  have htw : Pipeline.generateTweets (o.tweetResp 0) q
      = .error "OpenAI did not call the tool." := by
    simp [Pipeline.generateTweets, Pipeline.runTool, h0, tweetToolParamsCheck, hlen, Except.map]
  have hstage2 : Pipeline.addTweetsStage o { m0 with presentations := ps1 }
      = .error "OpenAI did not call the tool." := by
    unfold Pipeline.addTweetsStage
    have hpres : ({ m0 with presentations := ps1 } : Pipeline.Meeting).presentations
        = q :: rest := hqr
    rw [hpres]
    simp [Pipeline.traverseIdx, htw, Except.map]
  simp [Pipeline.runPipeline, hstage1, hstage2]

/-- Witness for C8: the example meeting with an oracle answering two tweets. -/
theorem c8_contract_violation_aborts_witness :
    Pipeline.runPipeline mtgOne oracleBadTweets
      = (.error "OpenAI did not call the tool.", []) :=
  c8_contract_violation_aborts mtgOne oracleBadTweets (by decide)
    (fun _ => ⟨["Containers", "Linux Kernel"], rfl, by decide⟩)
    ["Only one", "Only two"] rfl (by decide)

/-!
## Claim C9: stages as field additions
-/

/-- C9, counterexample: tag generation overwrites a `tags` field already set
in the input record instead of leaving every field set before the stage
unchanged. -/
theorem c9_frame_counterexample :
    (Pipeline.generateTags (some ["New Tag"]) pTagged).map (fun p => p.tags)
      = .ok (some ["new-tag"])
    ∧ pTagged.tags = some ["old"]
    ∧ (some ["new-tag"] : Option (List String)) ≠ some ["old"] :=
  ⟨rfl, rfl, by decide⟩

/-- C9, amended: every stage changes only its designated output field — tag
generation only the `tags` field, tweet generation and link suffixing only
the `tweet` field, the title stage only `youTubeTitle`, the image step only
`image` — leaving all other fields unchanged; the designated field itself is
(re)assigned even when already set. -/
theorem c9_frame_amended :
    (∀ resp (p p' : Pipeline.Presentation), Pipeline.generateTags resp p = .ok p' →
      p'.title = p.title ∧ p'.presenterNames = p.presenterNames ∧ p'.abstract = p.abstract
        ∧ p'.references = p.references ∧ p'.tweet = p.tweet)
    ∧ (∀ resp (p p' : Pipeline.Presentation), Pipeline.generateTweets resp p = .ok p' →
      p'.title = p.title ∧ p'.presenterNames = p.presenterNames ∧ p'.abstract = p.abstract
        ∧ p'.references = p.references ∧ p'.tags = p.tags)
    ∧ (∀ url (p p' : Pipeline.Presentation), Pipeline.addLinkToTweets p url = .ok p' →
      p'.title = p.title ∧ p'.presenterNames = p.presenterNames ∧ p'.abstract = p.abstract
        ∧ p'.references = p.references ∧ p'.tags = p.tags)
    ∧ (∀ o (m m' : Pipeline.Meeting), Pipeline.addTagsStage o m = .ok m' →
      m'.meetingDate = m.meetingDate ∧ m'.meetingType = m.meetingType
        ∧ m'.meetupUrl = m.meetupUrl ∧ m'.youtubeUrl = m.youtubeUrl
        ∧ m'.youTubeTitle = m.youTubeTitle ∧ m'.image = m.image)
    ∧ (∀ o (m m' : Pipeline.Meeting), Pipeline.addTweetsStage o m = .ok m' →
      m'.meetingDate = m.meetingDate ∧ m'.meetingType = m.meetingType
        ∧ m'.meetupUrl = m.meetupUrl ∧ m'.youtubeUrl = m.youtubeUrl
        ∧ m'.youTubeTitle = m.youTubeTitle ∧ m'.image = m.image)
    ∧ (∀ o (m m' : Pipeline.Meeting), Pipeline.addTitlesStage o m = .ok m' →
      m'.meetingDate = m.meetingDate ∧ m'.meetingType = m.meetingType
        ∧ m'.presentations = m.presentations ∧ m'.meetupUrl = m.meetupUrl
        ∧ m'.youtubeUrl = m.youtubeUrl ∧ m'.image = m.image)
    ∧ (∀ (m0 : Pipeline.Meeting) o m' w, Pipeline.runPipeline m0 o = (.ok m', w) →
      m'.meetingDate = m0.meetingDate ∧ m'.meetingType = m0.meetingType
        ∧ m'.meetupUrl = m0.meetupUrl ∧ m'.youtubeUrl = m0.youtubeUrl) := by
  refine ⟨?_, ?_, ?_, ?_, ?_, ?_, ?_⟩
  · intro resp p p' h
    obtain ⟨tags, _, hp'⟩ := except_map_eq_ok _ _ _ h
    subst hp'
    exact ⟨rfl, rfl, rfl, rfl, rfl⟩
  · intro resp p p' h
    obtain ⟨tws, _, hp'⟩ := except_map_eq_ok _ _ _ h
    subst hp'
    exact ⟨rfl, rfl, rfl, rfl, rfl⟩
  · intro url p p' h
    unfold Pipeline.addLinkToTweets at h
    split at h
    · exact absurd h (by simp)
    split at h
    · split at h
      · injection h with h2
        rw [← h2]
        exact ⟨rfl, rfl, rfl, rfl, rfl⟩
      · injection h with h2
        rw [← h2]
        exact ⟨rfl, rfl, rfl, rfl, rfl⟩
    · injection h with h2
      rw [← h2]
      exact ⟨rfl, rfl, rfl, rfl, rfl⟩
  · intro o m m' h
    obtain ⟨ps, hm', _⟩ := addTagsStage_inv o m m' h
    subst hm'
    exact ⟨rfl, rfl, rfl, rfl, rfl, rfl⟩
  · intro o m m' h
    obtain ⟨ps, hm', _⟩ := addTweetsStage_inv o m m' h
    subst hm'
    exact ⟨rfl, rfl, rfl, rfl, rfl, rfl⟩
  · intro o m m' h
    obtain ⟨L, _, hm'⟩ := addTitlesStage_inv o m m' h
    subst hm'
    exact ⟨rfl, rfl, rfl, rfl, rfl, rfl⟩
  · intro m0 o m' w h
    unfold Pipeline.runPipeline at h
    split at h
    · exact absurd h (by simp)
    split at h
    · exact absurd h (by simp)
    split at h
    · exact absurd h (by simp)
    split at h
    · exact absurd h (by simp)
    split at h
    · exact absurd h (by simp)
    split at h
    · exact absurd h (by simp)
    rw [Prod.mk.injEq] at h
    obtain ⟨hok, _⟩ := h
    injection hok with hok2
    obtain ⟨ps1, e1, _⟩ := addTagsStage_inv o m0 _ (by assumption)
    subst e1
    obtain ⟨ps2, e2, _⟩ := addTweetsStage_inv o { m0 with presentations := ps1 } _ (by assumption)
    subst e2
    obtain ⟨L, _, e3⟩ := addTitlesStage_inv o
      { m0 with presentations := ps2 } _ (by assumption)
    subst e3
    rw [← hok2]
    exact ⟨rfl, rfl, rfl, rfl⟩

/-- Witness for the amended C9: the tag stage on the example presentation
leaves the `tweet` field unchanged. -/
theorem c9_frame_amended_witness :
    ({ pIntro with tags := some (Pipeline.tagTool ["Ada"]) } : Pipeline.Presentation).tweet
      = pIntro.tweet :=
  (c9_frame_amended.1 (some ["Ada"]) pIntro
    { pIntro with tags := some (Pipeline.tagTool ["Ada"]) } (by rfl)).2.2.2.2

/-!
## Claim C4: the video-titles field of the final output
-/

theorem title_suffix_infix (ttl str date : String) :
    str.data <:+: (ttl ++ " | " ++ str ++ " " ++ date).data
    ∧ date.data <:+: (ttl ++ " | " ++ str ++ " " ++ date).data := by
  constructor
  · refine ⟨(ttl ++ " | ").data, (" " ++ date).data, ?_⟩
    simp [String.data_append, List.append_assoc]
  · refine ⟨(ttl ++ " | " ++ str ++ " ").data, [], ?_⟩
    simp [String.data_append, List.append_assoc]

theorem suffixTitle_mem_infix (args : List String) (date : Option JsDate)
    (mt : Option MeetingType) (t : String)
    (ht : t ∈ Pipeline.suffixTitleWithMeetingDateAndType args date mt) :
    (renderTypeTemplate mt).data <:+: t.data
      ∧ (renderDateTemplate date).data <:+: t.data := by
  unfold Pipeline.suffixTitleWithMeetingDateAndType at ht
  obtain ⟨ttl, _, rfl⟩ := List.mem_map.mp ht
  exact title_suffix_infix ttl (renderTypeTemplate mt) (renderDateTemplate date)

set_option maxRecDepth 4096 in
/-- C4, counterexample: on the spec's one-presentation example meeting the
final record's video-titles field holds 9 strings (three invocations of
three titles each), not exactly 3; moreover no title contains the input's
"2024-02-14" date string — the schema's `z.coerce.date()` turns it into a
`Date`, which the title suffix renders via `Date.prototype.toString`. -/
theorem c4_video_titles_counterexample :
    ((Pipeline.runPipeline mtgOne oracleOk).1.map fun m => (m.youTubeTitle.getD []).length)
      ≠ .ok 3
    ∧ ∀ t ∈ (((Pipeline.runPipeline mtgOne oracleOk).1.toOption).getD
        meetingDefault).youTubeTitle.getD [], ¬(("2024-02-14" : String).data <:+: t.data) := by
  constructor
  · have he : ((Pipeline.runPipeline mtgOne oracleOk).1.map
        fun m => (m.youTubeTitle.getD []).length) = .ok 9 := rfl
    rw [he]
    simp
  · decide

/-- C4, amended: for a one-presentation meeting whose run succeeds, the
final record's video-titles field contains exactly 9 strings (3 invocations
of 3 titles each), and every one of them contains the template-literal
rendering of the meeting type (e.g. "SLUUG") and of the coerced meeting
date (`Date.prototype.toString`, e.g. "Wed Feb 14 2024 00:00:00 GMT+0000
(Coordinated Universal Time)" — not the input's "2024-02-14" form). -/
theorem c4_video_titles_amended (m0 : Pipeline.Meeting) (o : Pipeline.Oracle)
    (m' : Pipeline.Meeting) (w : List String)
    (hone : m0.presentations.length = 1)
    (hrun : Pipeline.runPipeline m0 o = (.ok m', w)) :
    ∃ titles, m'.youTubeTitle = some titles ∧ titles.length = 9
      ∧ ∀ t ∈ titles, (renderTypeTemplate m0.meetingType).data <:+: t.data
          ∧ (renderDateTemplate m0.meetingDate).data <:+: t.data := by
  unfold Pipeline.runPipeline at hrun
  split at hrun
  · exact absurd hrun (by simp)
  split at hrun
  · exact absurd hrun (by simp)
  split at hrun
  · exact absurd hrun (by simp)
  split at hrun
  · exact absurd hrun (by simp)
  split at hrun
  · exact absurd hrun (by simp)
  split at hrun
  · exact absurd hrun (by simp)
  rw [Prod.mk.injEq] at hrun
  obtain ⟨hok, _⟩ := hrun
  injection hok with hok2
  obtain ⟨ps1, e1, l1⟩ := addTagsStage_inv o m0 _ (by assumption)
  subst e1
  obtain ⟨ps2, e2, l2⟩ := addTweetsStage_inv o { m0 with presentations := ps1 } _ (by assumption)
  subst e2
  obtain ⟨L, hL, e3⟩ := addTitlesStage_inv o
    { m0 with presentations := ps2 } _ (by assumption)
  subst e3
  rw [← hok2]
  refine ⟨L.flatten, rfl, ?_, ?_⟩
  · have l1' : ps1.length = m0.presentations.length := l1
    have l2' : ps2.length = ps1.length := l2
    have hlen2 : ps2.length = 1 := by omega
    have hL3 : L.length = (Pipeline.youTubeTitlePrompts ps2).length :=
      traverseIdx_ok_length _ _ _ _ hL
    have hp3 : (Pipeline.youTubeTitlePrompts ps2).length = 3 := by
      simp [Pipeline.youTubeTitlePrompts, hlen2]
    have hLlen : L.length = 3 := hL3.trans hp3
    have hmem3 : ∀ b ∈ L, b.length = 3 := by
      intro b hb
      obtain ⟨i, a, _, hfa⟩ := traverseIdx_ok_mem _ _ _ _ hL b hb
      obtain ⟨args, _, halen, hbform⟩ := generateYouTubeTitleFromPrompt_inv _ _ _ _ hfa
      rw [hbform]
      simp [Pipeline.suffixTitleWithMeetingDateAndType, halen]
    obtain ⟨x, y, z, hxyz⟩ := List.length_eq_three.mp hLlen
    subst hxyz
    have hx := hmem3 x (by simp)
    have hy := hmem3 y (by simp)
    have hz := hmem3 z (by simp)
    simp [hx, hy, hz]
  · intro t ht
    rw [List.mem_flatten] at ht
    obtain ⟨b, hbL, htb⟩ := ht
    obtain ⟨i, a, _, hfa⟩ := traverseIdx_ok_mem _ _ _ _ hL b hbL
    obtain ⟨args, _, _, hbform⟩ := generateYouTubeTitleFromPrompt_inv _ _ _ _ hfa
    rw [hbform] at htb
    exact suffixTitle_mem_infix args _ _ t htb

/-- Witness for the amended C4 on the spec's example meeting with a
well-behaved oracle. -/
theorem c4_video_titles_amended_witness :
    ∃ titles, mOutOne.youTubeTitle = some titles ∧ titles.length = 9
      ∧ ∀ t ∈ titles, (renderTypeTemplate mtgOne.meetingType).data <:+: t.data
          ∧ (renderDateTemplate mtgOne.meetingDate).data <:+: t.data :=
  c4_video_titles_amended mtgOne oracleOk mOutOne wOutOne (by decide) (by rfl)

end SluugGen
